import Mathlib

set_option maxRecDepth 100000

deriving instance DecidableEq for Except

/-!
Shallow embedding of the event-normalisation and iCalendar-serialisation core
of the catholicCalendar repository (catholic_calendar/calendar.py), together
with theorems checking the natural-language specification against it.

Modelling conventions:
* Python values flowing through the normaliser are modelled by the inductive
  type Value below: None, bool, int, str, datetime.date, datetime.datetime,
  bytes/bytearray, Sequence (list/tuple) and Mapping (dict).  Numbers are
  modelled as integers; float-specific formatting is out of scope.
* Machine-level details that cannot influence any claim (full Unicode
  case-mapping in str.lower, the repr of non-ASCII characters) are modelled
  ASCII-faithfully and noted at the definition concerned.
* Exceptions are modelled by Except: each Python raise site maps to a
  distinct NormError constructor, named after the error taxonomy of the
  specification where one applies (the Python exception class and message
  are recorded in comments at each site).
* The single clock read in build_icalendar (datetime.now formatted once) is
  passed in as an explicit string parameter, the standard embedding of a
  value read once per call.
-/

namespace CatCal

/-- A calendar date as stored in a Python datetime.date: year, month, day. -/
structure Date where
  year : Nat
  month : Nat
  day : Nat
deriving DecidableEq, Repr

/-- The time-of-day component carried by a Python datetime.datetime. -/
structure Time where
  hour : Nat
  minute : Nat
  second : Nat
  usec : Nat
deriving DecidableEq, Repr

/-- The result type of the date-resolution code: Python datetime.date values
have no time component, datetime.datetime values keep one.  Because
datetime is a subclass of date in Python, both kinds can flow out of
_parse_date (see there). -/
structure PyDate where
  date : Date
  time : Option Time
deriving DecidableEq, Repr

/-- The loosely-typed Python values appearing in romcal event records:
None, bool, int, str, datetime.date, datetime.datetime, bytes/bytearray,
Sequence (list/tuple) and Mapping (dict with string keys, as produced by
json parsing).  Numbers are modelled as integers. -/
inductive Value where
  | null : Value
  | vbool (b : Bool) : Value
  | num (n : Int) : Value
  | vstr (s : String) : Value
  | vdate (d : Date) : Value
  | vdatetime (d : Date) (t : Time) : Value
  | vbytes (l : List Nat) : Value
  | seq (l : List Value) : Value
  | vmap (l : List (String × Value)) : Value
deriving Repr

mutual

/-- Boolean equality on Value, written by hand because automatic deriving
does not support this nested inductive. -/
def Value.beq : Value → Value → Bool
  | .null, .null => true
  | .vbool a, .vbool b => a == b
  | .num a, .num b => a == b
  | .vstr a, .vstr b => a == b
  | .vdate a, .vdate b => a == b
  | .vdatetime a s, .vdatetime b t => a == b && s == t
  | .vbytes a, .vbytes b => a == b
  | .seq a, .seq b => Value.beqList a b
  | .vmap a, .vmap b => Value.beqPairs a b
  | _, _ => false

/-- Elementwise Value.beq on lists. -/
def Value.beqList : List Value → List Value → Bool
  | [], [] => true
  | a :: as, b :: bs => Value.beq a b && Value.beqList as bs
  | _, _ => false

/-- Elementwise Value.beq on key-value pair lists. -/
def Value.beqPairs : List (String × Value) → List (String × Value) → Bool
  | [], [] => true
  | (j, a) :: as, (k, b) :: bs => j == k && Value.beq a b && Value.beqPairs as bs
  | _, _ => false

end

mutual

def Value.beq_iff : ∀ (a b : Value), Value.beq a b = true ↔ a = b
  | a, b => by
    cases a <;> cases b <;>
      simp only [Value.beq, beq_iff_eq, Bool.and_eq_true, false_iff, reduceCtorEq,
        not_false_eq_true, Value.vbool.injEq, Value.num.injEq,
        Value.vstr.injEq, Value.vdate.injEq, Value.vdatetime.injEq, Value.vbytes.injEq,
        Value.seq.injEq, Value.vmap.injEq]
    case seq.seq as bs => exact Value.beqList_iff as bs
    case vmap.vmap as bs => exact Value.beqPairs_iff as bs

def Value.beqList_iff : ∀ (as bs : List Value), Value.beqList as bs = true ↔ as = bs
  | [], [] => by simp [Value.beqList]
  | [], _ :: _ => by simp [Value.beqList]
  | _ :: _, [] => by simp [Value.beqList]
  | a :: as, b :: bs => by
    simp only [Value.beqList, Bool.and_eq_true, List.cons.injEq]
    rw [Value.beq_iff a b, Value.beqList_iff as bs]

def Value.beqPairs_iff :
    ∀ (as bs : List (String × Value)), Value.beqPairs as bs = true ↔ as = bs
  | [], [] => by simp [Value.beqPairs]
  | [], _ :: _ => by simp [Value.beqPairs]
  | _ :: _, [] => by simp [Value.beqPairs]
  | (j, a) :: as, (k, b) :: bs => by
    simp only [Value.beqPairs, Bool.and_eq_true, List.cons.injEq, Prod.mk.injEq,
      beq_iff_eq]
    rw [Value.beq_iff a b, Value.beqPairs_iff as bs, and_assoc]

end

instance : DecidableEq Value := fun a b =>
  if h : Value.beq a b then .isTrue ((Value.beq_iff a b).mp h)
  else .isFalse (fun he => h ((Value.beq_iff a b).mpr he))

/-- Python truthiness of a modelled value: None, False, 0, the empty string
and empty containers are falsy; everything else (including date, datetime
and non-empty bytes) is truthy.  Empty bytes are falsy in Python, matching
the list test here. -/
def truthy : Value → Bool
  | .null => false
  | .vbool b => b
  | .num n => n != 0
  | .vstr s => s != ""
  | .vdate _ => true
  | .vdatetime _ _ => true
  | .vbytes [] => false
  | .vbytes (_ :: _) => true
  | .seq [] => false
  | .seq (_ :: _) => true
  | .vmap [] => false
  | .vmap (_ :: _) => true

/-- The Python expression a or b: a when a is truthy, b otherwise. -/
def pyOr (a b : Value) : Value :=
  if truthy a then a else b

/-- The Python test value is None. -/
def isNullValue : Value → Bool
  | .null => true
  | _ => false

/-- Whether a value is a Python str. -/
def isVstr : Value → Bool
  | .vstr _ => true
  | _ => false

/-- A raw romcal event record: a mapping from string keys to values.  Python
dicts have unique keys; lookup takes the first binding. -/
def Event : Type := List (String × Value)

/-- The Python expression event.get(k): the bound value, or None when the
key is absent. -/
def getv (ev : Event) (k : String) : Value :=
  (List.lookup k ev).getD .null

/-- The Python expression k in event. -/
def hasKey (ev : Event) (k : String) : Bool :=
  (List.lookup k ev).isSome

/-- Options controlling the produced feed: the CalendarConfig dataclass of
calendar.py.  Note that the dataclass has exactly these four fields; the
method / refresh_interval / published_ttl keyword arguments that cli.py
passes when constructing it do not exist here. -/
structure CalendarConfig where
  name : String := "General Roman Calendar"
  prodid : String := "-//Catholic Calendar//General Roman Calendar//EN"
  domain : String := "catholic.calendar"
  timezone : String := "UTC"
deriving DecidableEq, Repr

/-- The default configuration, CalendarConfig(). -/
def defaultConfig : CalendarConfig := {}

/-! Slugification (_slugify and the _SLUG_RE regex). -/

/-- Membership in the character class [a-z0-9] of _SLUG_RE. -/
def isSlugChar (c : Char) : Bool :=
  ('a' ≤ c && c ≤ 'z') || ('0' ≤ c && c ≤ '9')

/-- One step of _SLUG_RE.sub: map every character outside [a-z0-9] to a
hyphen, then collapse adjacent hyphens, so that each maximal run of
non-matching characters becomes a single hyphen, exactly as the regex
[^a-z0-9]+ with replacement "-" does. -/
def collapseHyphens (l : List Char) : List Char :=
  l.foldr (fun c acc => if c = '-' ∧ acc.head? = some '-' then acc else c :: acc) []

/-- Python str.strip("-"): remove leading and trailing hyphens. -/
def stripHyphens (l : List Char) : List Char :=
  ((l.dropWhile (· = '-')).reverse.dropWhile (· = '-')).reverse

/-- _slugify on the character list of a string.  str.lower is modelled by
Char.toLower, which lower-cases ASCII letters; non-ASCII letters stay
outside [a-z0-9] after lowering in Python as well, so they collapse to a
hyphen either way. -/
def slugifyChars (l : List Char) : List Char :=
  let lowered := l.map Char.toLower
  let subbed := collapseHyphens (lowered.map (fun c => if isSlugChar c then c else '-'))
  stripHyphens subbed

/-- Create a filesystem and UID friendly slug from an arbitrary string
(_slugify in calendar.py): empty input and empty result both give the
literal word event. -/
def _slugify (value : String) : String :=
  if value = "" then "event"
  else
    let r := slugifyChars value.data
    if r = [] then "event" else ⟨r⟩

/-! Text escaping (_escape_text). -/

/-- Replace every occurrence of a single character by a replacement string,
the behaviour of str.replace for one-character patterns. -/
def replaceChar (c : Char) (r : List Char) (l : List Char) : List Char :=
  l.flatMap (fun x => if x = c then r else [x])

/-- The five sequential str.replace passes of _escape_text, in source
order: backslash, newline, carriage return (deleted), comma, semicolon. -/
def escapeChars (l : List Char) : List Char :=
  replaceChar ';' ['\\', ';']
    (replaceChar ',' ['\\', ',']
      (replaceChar '\r' []
        (replaceChar '\n' ['\\', 'n']
          (replaceChar '\\' ['\\', '\\'] l))))

/-- Escape characters according to RFC 5545 (_escape_text in calendar.py). -/
def _escape_text (value : String) : String :=
  ⟨escapeChars value.data⟩

/-- The specification's description of escaping as one simultaneous
per-character rule; compared against the sequential implementation in the
theorem for claim C6. -/
def escCharSpec (c : Char) : List Char :=
  if c = '\\' then ['\\', '\\']
  else if c = '\n' then ['\\', 'n']
  else if c = '\r' then []
  else if c = ',' then ['\\', ',']
  else if c = ';' then ['\\', ';']
  else [c]

/-- The five characters treated specially by _escape_text. -/
def escapeSpecials : List Char := ['\\', '\n', '\r', ',', ';']

/-! Line folding (_fold_line). -/

/-- The maximum ICS line length, _MAX_LINE_LENGTH. -/
def maxLineLength : Nat := 75

/-- The while loop of _fold_line: chop a remainder into continuation
fragments of a leading space plus at most 74 characters. -/
def foldRemainder (r : List Char) : List (List Char) :=
  if h : r.length > maxLineLength - 1 then
    (' ' :: r.take (maxLineLength - 1)) :: foldRemainder (r.drop (maxLineLength - 1))
  else
    [' ' :: r]
termination_by r.length
decreasing_by
  simp only [List.length_drop, maxLineLength] at *
  omega

/-- Fold long ICS lines to respect the 75 character limit (_fold_line in
calendar.py), on character lists. -/
def foldLineChars (line : List Char) : List (List Char) :=
  if line.length ≤ maxLineLength then [line]
  else line.take maxLineLength :: foldRemainder (line.drop maxLineLength)

/-- _fold_line on strings. -/
def _fold_line (line : String) : List String :=
  (foldLineChars line.data).map (⟨·⟩)

/-- _format_ics_line in calendar.py. -/
def _format_ics_line (key value : String) : List String :=
  _fold_line (key ++ ":" ++ value)

/-- Re-joining folded fragments: the first fragment concatenated with every
continuation fragment stripped of its single leading character.  Used to
state the reconstruction property of claim C4. -/
def unfoldChunks : List (List Char) → List Char
  | [] => []
  | h :: t => h ++ (t.map List.tail).flatten

/-! Calendar arithmetic and formatting helpers from the datetime module. -/

/-- Zero-pad a number to two digits. -/
def pad2 (n : Nat) : String :=
  if n < 10 then "0" ++ toString n else toString n

/-- Zero-pad a number to four digits, as date.isoformat does for years. -/
def pad4 (n : Nat) : String :=
  if n < 10 then "000" ++ toString n
  else if n < 100 then "00" ++ toString n
  else if n < 1000 then "0" ++ toString n
  else toString n

/-- Zero-pad a number to six digits (microseconds). -/
def pad6 (n : Nat) : String :=
  let s := toString n
  ⟨List.replicate (6 - s.length) '0'⟩ ++ s

/-- date.isoformat(): YYYY-MM-DD. -/
def isoDate (d : Date) : String :=
  pad4 d.year ++ "-" ++ pad2 d.month ++ "-" ++ pad2 d.day

/-- The time portion of datetime.isoformat(): HH:MM:SS with the fractional
part appended only when the microsecond field is non-zero. -/
def isoTime (t : Time) : String :=
  pad2 t.hour ++ ":" ++ pad2 t.minute ++ ":" ++ pad2 t.second
    ++ (if t.usec = 0 then "" else "." ++ pad6 t.usec)

/-- isoformat() of a resolved date value: plain dates have no time portion,
datetimes append a T separator and the time. -/
def pyDateIso (pd : PyDate) : String :=
  isoDate pd.date ++ (match pd.time with
    | none => ""
    | some t => "T" ++ isoTime t)

/-- strftime with %Y%m%d.  The year is modelled as zero-padded to four
digits; for years below 1000 the padding of %Y is platform dependent in
CPython, which no claim exercises. -/
def strftimeYmd (d : Date) : String :=
  pad4 d.year ++ pad2 d.month ++ pad2 d.day

/-- Gregorian leap year rule, as in the datetime module. -/
def isLeap (y : Nat) : Bool :=
  y % 4 = 0 && (y % 100 != 0 || y % 400 = 0)

/-- Number of days in a month of a given year. -/
def daysInMonth (y m : Nat) : Nat :=
  if m = 2 then (if isLeap y then 29 else 28)
  else if m = 4 ∨ m = 6 ∨ m = 9 ∨ m = 11 then 30
  else 31

/-- Adding timedelta(days=1) to a date.  Total on the valid dates the
parser produces; on out-of-range fields it simply rolls over. -/
def nextDay (d : Date) : Date :=
  if d.day < daysInMonth d.year d.month then ⟨d.year, d.month, d.day + 1⟩
  else if d.month < 12 then ⟨d.year, d.month + 1, 1⟩
  else ⟨d.year + 1, 1, 1⟩

/-- Error taxonomy of event normalisation: every Python raise site reachable
from _normalise_event, named after the specification's error classes where
one matches.  Each constructor's comment records the Python exception. -/
inductive NormError where
  /-- KeyError raised when the record has neither a date nor a start key
  (the specification's MissingDateError). -/
  | missingDate : NormError
  /-- ValueError or TypeError raised inside _parse_date, including the
  range error from datetime.utcfromtimestamp (the specification's
  UnparseableDateError). -/
  | unparseableDate : NormError
  /-- TypeError raised by json.dumps in the _stringify fallback (the
  specification's UnsupportedValueError). -/
  | unsupportedValue : NormError
  /-- AttributeError raised when a non-string reaches str methods:
  _slugify calling value.lower(), or _escape_text calling value.replace on
  a non-string summary during serialisation. -/
  | attributeError : NormError
  /-- TypeError raised by list(category) when the resolved category is
  neither a string nor iterable. -/
  | categoryTypeError : NormError
deriving DecidableEq, Repr

/-- Civil-from-days conversion (days since 1970-01-01, proleptic Gregorian),
the arithmetic underlying datetime.utcfromtimestamp.  Divisions on the
intermediate non-negative quantities truncate, the era uses flooring
division. -/
def civilFromDays (z0 : Int) : Int × Int × Int :=
  let z := z0 + 719468
  let era : Int := Int.fdiv z 146097
  let doe : Int := z - era * 146097
  let yoe : Int := (doe - doe / 1460 + doe / 36524 - doe / 146096) / 365
  let y : Int := yoe + era * 400
  let doy : Int := doe - (365 * yoe + yoe / 4 - yoe / 100)
  let mp : Int := (5 * doy + 2) / 153
  let d : Int := doy - (153 * mp + 2) / 5 + 1
  let m : Int := mp + (if mp < 10 then 3 else -9)
  (y + (if m ≤ 2 then 1 else 0), m, d)

/-- datetime.utcfromtimestamp(ts).date() for an integer timestamp: convert
floor(ts / 86400) days to a civil date; outside the year range 1..9999 the
datetime constructor raises. -/
def utcfromtimestampDate (ts : Int) : Except NormError Date :=
  let ymd := civilFromDays (Int.fdiv ts 86400)
  if 1 ≤ ymd.1 ∧ ymd.1 ≤ 9999 then
    .ok ⟨ymd.1.toNat, ymd.2.1.toNat, ymd.2.2.toNat⟩
  else .error .unparseableDate

/-! ISO-8601 parsing, modelling date.fromisoformat and
datetime.fromisoformat with the strict CPython 3.9 grammar. -/

/-- Value of a decimal digit character. -/
def digitVal (c : Char) : Option Nat :=
  if c.isDigit then some (c.toNat - 48) else none

/-- Two decimal digits. -/
def digits2 (a b : Char) : Option Nat := do
  let x ← digitVal a
  let y ← digitVal b
  pure (10 * x + y)

/-- Four decimal digits. -/
def digits4 (a b c d : Char) : Option Nat := do
  let x ← digits2 a b
  let y ← digits2 c d
  pure (100 * x + y)

/-- date.fromisoformat: exactly the shape YYYY-MM-DD with a valid calendar
date, year 0001..9999. -/
def isoDateOfChars : List Char → Option Date
  | [y1, y2, y3, y4, '-', m1, m2, '-', d1, d2] => do
    let y ← digits4 y1 y2 y3 y4
    let m ← digits2 m1 m2
    let d ← digits2 d1 d2
    if 1 ≤ y ∧ 1 ≤ m ∧ m ≤ 12 ∧ 1 ≤ d ∧ d ≤ daysInMonth y m then
      some ⟨y, m, d⟩
    else none
  | _ => none

/-- The fractional-second part of an ISO time: exactly three or six digits,
scaled to microseconds. -/
def parseFrac : List Char → Option Nat
  | [a, b, c] => do
    let x ← digitVal a
    let y ← digitVal b
    let z ← digitVal c
    pure ((100 * x + 10 * y + z) * 1000)
  | [a, b, c, d, e, f] => do
    let x ← digits2 a b
    let y ← digits2 c d
    let z ← digits2 e f
    pure (10000 * x + 100 * y + z)
  | _ => none

/-- The time-of-day portion HH[:MM[:SS[.fff[fff]]]] of 3.9's
datetime.fromisoformat. -/
def parseTimePart : List Char → Option Time
  | [h1, h2] => do
    let h ← digits2 h1 h2
    if h ≤ 23 then some ⟨h, 0, 0, 0⟩ else none
  | [h1, h2, ':', m1, m2] => do
    let h ← digits2 h1 h2
    let m ← digits2 m1 m2
    if h ≤ 23 ∧ m ≤ 59 then some ⟨h, m, 0, 0⟩ else none
  | [h1, h2, ':', m1, m2, ':', s1, s2] => do
    let h ← digits2 h1 h2
    let m ← digits2 m1 m2
    let s ← digits2 s1 s2
    if h ≤ 23 ∧ m ≤ 59 ∧ s ≤ 59 then some ⟨h, m, s, 0⟩ else none
  | h1 :: h2 :: ':' :: m1 :: m2 :: ':' :: s1 :: s2 :: '.' :: frac => do
    let h ← digits2 h1 h2
    let m ← digits2 m1 m2
    let s ← digits2 s1 s2
    let us ← parseFrac frac
    if h ≤ 23 ∧ m ≤ 59 ∧ s ≤ 59 then some ⟨h, m, s, us⟩ else none
  | _ => none

/-- The UTC-offset tail of 3.9's datetime.fromisoformat: empty, or a sign
followed by HH:MM, HH:MM:SS or HH:MM:SS.ffffff. -/
def tzTailOk : List Char → Bool
  | [] => true
  | sign :: rest =>
    (sign = '+' || sign = '-') &&
      (match parseTimePart rest with
        | some t => t.hour ≤ 23 && t.minute ≤ 59 && rest.length ≥ 5
        | none => false)

/-- datetime.fromisoformat under the 3.9 grammar: a strict YYYY-MM-DD
prefix, then optionally one separator character (any character), a time
portion, and an optional UTC offset. -/
def isoDatetimeOfChars (l : List Char) : Option PyDate := do
  let d ← isoDateOfChars (l.take 10)
  match l.drop 10 with
  | [] => some ⟨d, some ⟨0, 0, 0, 0⟩⟩
  | _ :: timetz =>
    let timePart := timetz.takeWhile (fun c => c ≠ '+' ∧ c ≠ '-')
    let tzPart := timetz.drop timePart.length
    match parseTimePart timePart with
    | some t => if tzTailOk tzPart then some ⟨d, some t⟩ else none
    | none => none

/-- Parse a date from romcal output (_parse_date in calendar.py).  Because
datetime is a subclass of date in Python, the first isinstance branch
catches datetime values and returns them unchanged, keeping their time
component; the truncating isinstance(value, dt.datetime) branch below it
is unreachable.  Booleans are a subclass of int and are accepted as Unix
timestamps.  The final raise sites are ValueError (string that parses
under neither grammar) and TypeError (unsupported value type). -/
def _parse_date : Value → Except NormError PyDate
  | .vdate d => .ok ⟨d, none⟩
  | .vdatetime d t => .ok ⟨d, some t⟩
  | .num n => (utcfromtimestampDate n).map (fun d => ⟨d, none⟩)
  | .vbool b => (utcfromtimestampDate (if b then 1 else 0)).map (fun d => ⟨d, none⟩)
  | .vstr s =>
    match isoDateOfChars (s.data.take 10) with
    | some d => .ok ⟨d, none⟩
    | none =>
      match isoDatetimeOfChars s.data with
      | some pd => .ok ⟨pd.date, none⟩
      | none => .error .unparseableDate
  | _ => .error .unparseableDate

/-- The date-value shapes accepted by _parse_date, stated following the
specification's list: structured date or datetime, numeric timestamp whose
civil year is representable, boolean (a numeric subtype in Python), and a
string parsed by either ISO grammar. -/
def acceptedDateShape : Value → Bool
  | .vdate _ => true
  | .vdatetime _ _ => true
  | .num n =>
    decide (1 ≤ (civilFromDays (Int.fdiv n 86400)).1 ∧
      (civilFromDays (Int.fdiv n 86400)).1 ≤ 9999)
  | .vbool _ => true
  | .vstr s => (isoDateOfChars (s.data.take 10)).isSome || (isoDatetimeOfChars s.data).isSome
  | _ => false

/-! Python str() and repr(), used by str(category), by the f-string building
the uid seed, and by the uid branch str(uid).  The container cases are
unreachable from every theorem below; they are modelled structurally, with
the caveat that the repr of non-ASCII characters (kept verbatim here) and
of exotic nestings is not bit-perfect CPython. -/

/-- One lower-case hexadecimal digit: 0-9 then a-f, by character
arithmetic (48 is the code of the zero digit, 87 + 10 the code of a). -/
def hexDigit (n : Nat) : Char :=
  if n % 16 < 10 then Char.ofNat (48 + n % 16) else Char.ofNat (87 + n % 16)

/-- Two-digit lower-case hexadecimal rendering of a byte. -/
def hexByte (n : Nat) : List Char := [hexDigit (n / 16), hexDigit n]

/-- Escaping of one character inside a Python string repr with the chosen
quote character. -/
def reprEscapeChar (quote c : Char) : List Char :=
  if c = '\\' then ['\\', '\\']
  else if c = quote then ['\\', quote]
  else if c = '\n' then ['\\', 'n']
  else if c = '\r' then ['\\', 'r']
  else if c = '\t' then ['\\', 't']
  else if c.toNat < 32 ∨ c.toNat = 127 then '\\' :: 'x' :: hexByte c.toNat
  else [c]

/-- repr of a Python string: single quotes unless the text contains a
single quote and no double quote. -/
def reprQuoteStr (s : String) : String :=
  let quote := if s.data.contains '\'' ∧ ¬ s.data.contains '"' then '"' else '\''
  ⟨quote :: s.data.flatMap (reprEscapeChar quote) ++ [quote]⟩

/-- repr of one byte inside a bytes literal. -/
def bytesReprChar (quote : Char) (b : Nat) : List Char :=
  if b = 92 then ['\\', '\\']
  else if b = quote.toNat then ['\\', quote]
  else if b = 9 then ['\\', 't']
  else if b = 10 then ['\\', 'n']
  else if b = 13 then ['\\', 'r']
  else if 32 ≤ b ∧ b < 127 then [Char.ofNat b]
  else '\\' :: 'x' :: hexByte b

/-- repr of a bytes value. -/
def bytesRepr (l : List Nat) : String :=
  let quote := if l.contains 39 ∧ ¬ l.contains 34 then '"' else '\''
  ⟨'b' :: quote :: l.flatMap (bytesReprChar quote) ++ [quote]⟩

mutual

/-- Python repr() on modelled values. -/
def pyRepr : Value → String
  | .null => "None"
  | .vbool b => if b then "True" else "False"
  | .num n => toString n
  | .vstr s => reprQuoteStr s
  | .vdate d =>
    "datetime.date(" ++ toString d.year ++ ", " ++ toString d.month ++ ", "
      ++ toString d.day ++ ")"
  | .vdatetime d t =>
    "datetime.datetime(" ++ toString d.year ++ ", " ++ toString d.month ++ ", "
      ++ toString d.day ++ ", " ++ toString t.hour ++ ", " ++ toString t.minute
      ++ (if t.usec ≠ 0 then ", " ++ toString t.second ++ ", " ++ toString t.usec
          else if t.second ≠ 0 then ", " ++ toString t.second
          else "")
      ++ ")"
  | .vbytes l => bytesRepr l
  | .seq l => "[" ++ String.intercalate ", " (pyReprList l) ++ "]"
  | .vmap l => "\x7b" ++ String.intercalate ", " (pyReprPairs l) ++ "\x7d"

/-- repr of each element of a list. -/
def pyReprList : List Value → List String
  | [] => []
  | v :: rest => pyRepr v :: pyReprList rest

/-- repr of each key-value entry of a dict. -/
def pyReprPairs : List (String × Value) → List String
  | [] => []
  | (k, v) :: rest => (reprQuoteStr k ++ ": " ++ pyRepr v) :: pyReprPairs rest

end

/-- Python str() on modelled values: strings unquoted, dates and datetimes
in ISO form (datetime with a space separator), everything else as repr. -/
def pyStr : Value → String
  | .vstr s => s
  | .vdate d => isoDate d
  | .vdatetime d t => isoDate d ++ " " ++ isoTime t
  | v => pyRepr v

mutual

/-- Convert a romcal value to a human readable string (_stringify in
calendar.py).  The branches mirror the source's isinstance chain: None,
str, bool, number, Sequence (bytes and bytearray excluded), Mapping.  The
json.dumps fallback raises TypeError for every value that reaches it,
because values outside the handled shapes (date, datetime, bytes) are not
JSON serialisable. -/
def _stringify : Value → Except NormError String
  | .null => .ok ""
  | .vstr s => .ok s
  | .vbool b => .ok (if b then "Yes" else "No")
  | .num n => .ok (toString n)
  | .seq l => do
    let parts ← stringifySeq l
    .ok (String.intercalate ", " parts)
  | .vmap l => do
    let parts ← stringifyPairs l
    .ok (String.intercalate "; " parts)
  | .vdate _ => .error .unsupportedValue
  | .vdatetime _ _ => .error .unsupportedValue
  | .vbytes _ => .error .unsupportedValue

/-- Stringification of the non-None elements of a sequence, left to right,
propagating the first error, as the joined generator expression does. -/
def stringifySeq : List Value → Except NormError (List String)
  | [] => .ok []
  | v :: rest =>
    if isNullValue v then stringifySeq rest
    else do
      let s ← _stringify v
      let r ← stringifySeq rest
      .ok (s :: r)

/-- Stringification of the entries of a mapping whose values are not None,
rendered as key-colon-space-value. -/
def stringifyPairs : List (String × Value) → Except NormError (List String)
  | [] => .ok []
  | (k, v) :: rest =>
    if isNullValue v then stringifyPairs rest
    else do
      let s ← _stringify v
      let r ← stringifyPairs rest
      .ok ((k ++ ": " ++ s) :: r)

end

/-! A faithful SHA-1 and version-5 UUID, the deterministic identifier
derivation used by uuid.uuid5(uuid.NAMESPACE_URL, seed). -/

/-- Truncation to a 32-bit word. -/
def w32 (n : Nat) : Nat := n % 4294967296

/-- Left rotation of a 32-bit word. -/
def rotl (k x : Nat) : Nat := w32 (x <<< k) ||| (w32 x >>> (32 - k))

/-- Big-endian bytes of a 32-bit word. -/
def beBytes4 (n : Nat) : List Nat :=
  [(n >>> 24) % 256, (n >>> 16) % 256, (n >>> 8) % 256, n % 256]

/-- Big-endian bytes of a 64-bit length field. -/
def beBytes8 (n : Nat) : List Nat :=
  [(n >>> 56) % 256, (n >>> 48) % 256, (n >>> 40) % 256, (n >>> 32) % 256,
   (n >>> 24) % 256, (n >>> 16) % 256, (n >>> 8) % 256, n % 256]

/-- SHA-1 padding: append the 0x80 byte, zero bytes up to 56 mod 64, then
the bit length as eight big-endian bytes. -/
def sha1Pad (msg : List Nat) : List Nat :=
  let z := (120 - (msg.length % 64 + 1)) % 64
  msg ++ [128] ++ List.replicate z 0 ++ beBytes8 (msg.length * 8)

/-- Pack bytes into big-endian 32-bit words. -/
def bytesToWords : List Nat → List Nat
  | b1 :: b2 :: b3 :: b4 :: rest =>
    (((b1 * 256 + b2) * 256 + b3) * 256 + b4) :: bytesToWords rest
  | _ => []

/-- Split a word list into chunks of sixteen, carrying the current partial
chunk reversed in an accumulator so that the recursion is structural and
computations reduce in the kernel.  Padded SHA-1 input is always a whole
number of chunks. -/
def chunksOf16Aux : List Nat → List Nat → List (List Nat)
  | [], acc => if acc.isEmpty then [] else [acc.reverse]
  | w :: rest, acc =>
    if acc.length = 15 then (acc.reverse ++ [w]) :: chunksOf16Aux rest []
    else chunksOf16Aux rest (w :: acc)

/-- Split a word list into chunks of sixteen. -/
def chunksOf16 (l : List Nat) : List (List Nat) := chunksOf16Aux l []

/-- The SHA-1 message schedule: extend sixteen words to eighty. -/
def sha1Schedule (chunk : List Nat) : List Nat :=
  (List.range 64).foldl
    (fun ws _ =>
      ws ++ [rotl 1 ((ws.getD (ws.length - 3) 0) ^^^ (ws.getD (ws.length - 8) 0) ^^^
        (ws.getD (ws.length - 14) 0) ^^^ (ws.getD (ws.length - 16) 0))])
    chunk

/-- One SHA-1 round. -/
def sha1Round (st : Nat × Nat × Nat × Nat × Nat) (iw : Nat × Nat) :
    Nat × Nat × Nat × Nat × Nat :=
  let a := st.1
  let b := st.2.1
  let c := st.2.2.1
  let d := st.2.2.2.1
  let e := st.2.2.2.2
  let i := iw.1
  let w := iw.2
  let f :=
    if i < 20 then (b &&& c) ||| ((4294967295 ^^^ b) &&& d)
    else if i < 40 then b ^^^ c ^^^ d
    else if i < 60 then (b &&& c) ||| (b &&& d) ||| (c &&& d)
    else b ^^^ c ^^^ d
  let k :=
    if i < 20 then 1518500249
    else if i < 40 then 1859775393
    else if i < 60 then 2400959708
    else 3395469782
  (w32 (rotl 5 a + f + e + k + w), a, rotl 30 b, c, d)

/-- Process one 64-byte chunk. -/
def sha1Chunk (h : Nat × Nat × Nat × Nat × Nat) (chunk : List Nat) :
    Nat × Nat × Nat × Nat × Nat :=
  let st := (sha1Schedule chunk).enum.foldl sha1Round h
  (w32 (h.1 + st.1), w32 (h.2.1 + st.2.1), w32 (h.2.2.1 + st.2.2.1),
   w32 (h.2.2.2.1 + st.2.2.2.1), w32 (h.2.2.2.2 + st.2.2.2.2))

/-- SHA-1 of a byte list, as a 20-byte digest. -/
def sha1 (msg : List Nat) : List Nat :=
  let chunks := chunksOf16 (bytesToWords (sha1Pad msg))
  let h := chunks.foldl sha1Chunk
    (1732584193, 4023233417, 2562383102, 271733878, 3285377520)
  beBytes4 h.1 ++ beBytes4 h.2.1 ++ beBytes4 h.2.2.1 ++ beBytes4 h.2.2.2.1
    ++ beBytes4 h.2.2.2.2

/-- UTF-8 encoding of one character. -/
def utf8Bytes (c : Char) : List Nat :=
  let n := c.toNat
  if n < 128 then [n]
  else if n < 2048 then [192 ||| (n >>> 6), 128 ||| (n &&& 63)]
  else if n < 65536 then
    [224 ||| (n >>> 12), 128 ||| ((n >>> 6) &&& 63), 128 ||| (n &&& 63)]
  else
    [240 ||| (n >>> 18), 128 ||| ((n >>> 12) &&& 63), 128 ||| ((n >>> 6) &&& 63),
     128 ||| (n &&& 63)]

/-- UTF-8 encoding of a string, bytes(name, "utf-8") in the uuid module. -/
def strBytes (s : String) : List Nat := s.data.flatMap utf8Bytes

/-- The bytes of uuid.NAMESPACE_URL, 6ba7b811-9dad-11d1-80b4-00c04fd430c8. -/
def namespaceURL : List Nat :=
  [107, 167, 184, 17, 157, 173, 17, 209, 128, 180, 0, 192, 79, 212, 48, 200]

/-- The bytes of uuid.NAMESPACE_DNS, 6ba7b810-9dad-11d1-80b4-00c04fd430c8,
kept for the documented test vector below. -/
def namespaceDNS : List Nat :=
  [107, 167, 184, 16, 157, 173, 17, 209, 128, 180, 0, 192, 79, 212, 48, 200]

/-- uuid5: the first sixteen SHA-1 bytes of namespace plus name, with the
version nibble forced to 5 and the variant bits to 10. -/
def uuid5Bytes (ns : List Nat) (name : String) : List Nat :=
  ((sha1 (ns ++ strBytes name)).take 16).enum.map
    (fun ib =>
      if ib.1 = 6 then (ib.2 &&& 15) ||| 80
      else if ib.1 = 8 then (ib.2 &&& 63) ||| 128
      else ib.2)

/-- The canonical 8-4-4-4-12 hexadecimal string of a UUID, str(UUID). -/
def uuidFormat (bytes : List Nat) : String :=
  let hx := bytes.flatMap hexByte
  ⟨hx.take 8 ++ '-' :: (hx.drop 8).take 4 ++ '-' :: (hx.drop 12).take 4
    ++ '-' :: (hx.drop 16).take 4 ++ '-' :: hx.drop 20⟩

/-- str(uuid.uuid5(ns, name)). -/
def uuid5Str (ns : List Nat) (name : String) : String :=
  uuidFormat (uuid5Bytes ns name)

/-! Event normalisation (_normalise_event). -/

/-- The canonical event mapping returned by _normalise_event.  As in the
source, the summary keeps whatever raw value was resolved (the dictionary
stores it unchanged), the description is an assembled string, categories
are the raw values that str() is later applied to, and the date keeps a
time component when a datetime slipped through _parse_date. -/
structure NormalisedEvent where
  uid : String
  summary : Value
  description : String
  categories : List Value
  date : PyDate
deriving DecidableEq, Repr

/-- The loop over description_pairs: skip None values, stringify, keep
label-colon-space-value lines whose stringification is non-empty. -/
def pairLines : List (String × Value) → Except NormError (List String)
  | [] => .ok []
  | (label, v) :: rest =>
    if isNullValue v then pairLines rest
    else do
      let s ← _stringify v
      let r ← pairLines rest
      .ok (if s = "" then r else (label ++ ": " ++ s) :: r)

/-- The summary resolution of _normalise_event: the Python expression
name or title or celebration or id or "Unnamed Celebration", that is the
first truthy value with the literal default. -/
def resolveSummary (event : Event) : Value :=
  pyOr (getv event "name") (pyOr (getv event "title")
    (pyOr (getv event "celebration") (pyOr (getv event "id")
      (.vstr "Unnamed Celebration"))))

/-- The category resolution of _normalise_event: rankName or rank or type
or classification or "Celebration". -/
def resolveCategory (event : Event) : Value :=
  pyOr (getv event "rankName") (pyOr (getv event "rank")
    (pyOr (getv event "type") (pyOr (getv event "classification")
      (.vstr "Celebration"))))

/-- The date-value selection at the top of _normalise_event: the date key
if present (by containment, not truthiness), else the start key. -/
def selectedDateValue (event : Event) : Option Value :=
  if hasKey event "date" then some (getv event "date")
  else if hasKey event "start" then some (getv event "start")
  else none

/-- The claim's reading of the summary rule, following the specification's
words: the first value among the four keys, in order, that is present and
not null, regardless of truthiness.  Compared with the implementation in
the counterexample for claim C7. -/
def summaryFirstNonNull (ev : Event) : Value :=
  ((["name", "title", "celebration", "id"].map (getv ev)).filter
    (fun v => !isNullValue v)).headD (.vstr "Unnamed Celebration")

/-- The first truthy value bound to one of the given keys, in order; the
rule the or-chains of the source actually implement. -/
def firstTruthyKey (ev : Event) : List String → Option Value
  | [] => none
  | k :: rest =>
    if truthy (getv ev k) then some (getv ev k) else firstTruthyKey ev rest

/-- The explicit-uid selection inside the uid resolution: the str() form of
the uid-or-identifier chain when it is truthy. -/
def resolveExplicitUid (ev : Event) : Option String :=
  let uid0 := pyOr (getv ev "uid") (getv ev "identifier")
  if truthy uid0 then some (pyStr uid0) else none

/-- The slug used for a derived uid (source line 142): the slug key when
truthy, in its str() form, else the slugified summary; Python raises
AttributeError when a non-string summary reaches value.lower(). -/
def resolveSlug (event : Event) (summary : Value) : Except NormError String :=
  if truthy (getv event "slug") then .ok (pyStr (getv event "slug"))
  else
    match summary with
    | .vstr s => .ok (_slugify s)
    | _ => .error .attributeError

/-- The uid resolution of _normalise_event (source lines 136 to 144): an
explicit truthy uid or identifier value is used in its str() form with the
domain appended unless it already contains an at sign; otherwise a
version-5 UUID of the isoformat date joined to the slug, under the URL
namespace, with the domain appended. -/
def resolveUid (event : Event) (config : CalendarConfig) (dateValue : PyDate)
    (summary : Value) : Except NormError String :=
  let uid0 := pyOr (getv event "uid") (getv event "identifier")
  if truthy uid0 then
    let s := pyStr uid0
    .ok (if s.data.contains '@' then s else s ++ "@" ++ config.domain)
  else
    (resolveSlug event summary).map (fun slug =>
      uuid5Str namespaceURL (pyDateIso dateValue ++ "-" ++ slug)
        ++ "@" ++ config.domain)

/-- The description_pairs list of _normalise_event (source lines 147 to
159), including the Notes pair appended when notes are truthy. -/
def descriptionPairsOf (event : Event) : List (String × Value) :=
  let notes := pyOr (getv event "note") (getv event "notes")
  [("Rank", pyOr (getv event "rankName") (getv event "rank")),
   ("Liturgical color",
     pyOr (getv event "liturgicalColor") (getv event "liturgicalColors")),
   ("Season", pyOr (getv event "season") (getv event "liturgicalSeason")),
   ("Type", pyOr (getv event "type") (getv event "liturgicalType")),
   ("Holy day of obligation", getv event "isHolyDayOfObligation"),
   ("Optional memorial", getv event "isOptional"),
   ("Week", pyOr (getv event "week") (getv event "liturgicalWeek")),
   ("Cycle", pyOr (getv event "cycle") (getv event "liturgicalCycle"))]
    ++ (if truthy notes then [("Notes", notes)] else [])

/-- The Commemorations line (source lines 161 to 163), emitted even when
the stringification is empty. -/
def commemLinesOf (event : Event) : Except NormError (List String) :=
  let commemorations :=
    pyOr (getv event "commemorations") (getv event "secondaryCelebrations")
  if truthy commemorations then
    (_stringify commemorations).map (fun s => ["Commemorations: " ++ s])
  else .ok []

/-- The bare metadata block (source lines 165 to 167), emitted even when
the stringification is empty. -/
def metaLinesOf (event : Event) : Except NormError (List String) :=
  let metadata := pyOr (getv event "metadata") (getv event "meta")
  if truthy metadata then (_stringify metadata).map (fun s => [s])
  else .ok []

/-- The categories list (source line 178): a string category is the sole
entry; otherwise list() of the value, which Python defines for sequences
(the elements), mappings (the keys) and bytes (the byte values as
integers) and which raises TypeError on non-iterables. -/
def categoriesOf (category : Value) : Except NormError (List Value) :=
  match category with
  | .vstr s => .ok [Value.vstr s]
  | .seq l => .ok l
  | .vmap l => .ok (l.map (fun kv => Value.vstr kv.1))
  | .vbytes l => .ok (l.map (fun b => Value.num (Int.ofNat b)))
  | _ => .error .categoryTypeError

/-- The body of _normalise_event after date resolution (source lines 120
onward): summary and category expressions, uid, description lines,
categories, assembled in source order so that errors surface exactly as
the Python exceptions do. -/
def _normalise_event_rest (event : Event) (config : CalendarConfig)
    (dateValue : PyDate) : Except NormError NormalisedEvent := do
  let summary := resolveSummary event
  let category := resolveCategory event
  let uid ← resolveUid event config dateValue summary
  let commemLines ← commemLinesOf event
  let metaLines ← metaLinesOf event
  let labelled ← pairLines (descriptionPairsOf event)
  let description := String.intercalate "\n" (commemLines ++ metaLines ++ labelled)
  let categories ← categoriesOf category
  pure ⟨uid, summary, description, categories, dateValue⟩

/-- The date resolution at the top of _normalise_event (source lines 113
to 118): the date key if present, else the start key, else the KeyError
modelled as the missing-date error. -/
def resolveDateValue (event : Event) : Except NormError PyDate :=
  if hasKey event "date" then _parse_date (getv event "date")
  else if hasKey event "start" then _parse_date (getv event "start")
  else .error .missingDate

/-- Turn a romcal event dictionary into an iCalendar ready mapping
(_normalise_event in calendar.py): resolve the date from the date or start
key, then assemble the remaining fields. -/
def _normalise_event (event : Event) (config : CalendarConfig) :
    Except NormError NormalisedEvent := do
  let dateValue ← resolveDateValue event
  _normalise_event_rest event config dateValue

/-! The feed serialiser (build_icalendar). -/

/-- The physical line terminator. -/
def crlf : String := "\r\n"

/-- The feed header emitted by build_icalendar: exactly these six lines,
none folded, none optional.  The CalendarConfig carries no method,
refresh-interval or published-TTL option, so no such property can ever be
emitted. -/
def headerLines (cfg : CalendarConfig) : List String :=
  ["BEGIN:VCALENDAR",
   "PRODID:" ++ cfg.prodid,
   "VERSION:2.0",
   "CALSCALE:GREGORIAN",
   "X-WR-CALNAME:" ++ _escape_text cfg.name,
   "X-WR-TIMEZONE:" ++ _escape_text cfg.timezone]

/-- The lines of one VEVENT block.  _escape_text is str.replace chained on
the summary, so a non-string summary raises AttributeError here. -/
def eventBlock (now : String) (ne : NormalisedEvent) :
    Except NormError (List String) := do
  let startD := strftimeYmd ne.date.date
  let endD := strftimeYmd (nextDay ne.date.date)
  let summaryStr ←
    match ne.summary with
    | .vstr s => pure s
    | _ => .error .attributeError
  pure (["BEGIN:VEVENT"]
    ++ _format_ics_line "UID" ne.uid
    ++ _format_ics_line "DTSTAMP" now
    ++ _format_ics_line "DTSTART;VALUE=DATE" startD
    ++ _format_ics_line "DTEND;VALUE=DATE" endD
    ++ _format_ics_line "SUMMARY" (_escape_text summaryStr)
    ++ (if ne.description = "" then []
        else _format_ics_line "DESCRIPTION" (_escape_text ne.description))
    ++ (ne.categories.map
        (fun c => _format_ics_line "CATEGORIES" (_escape_text (pyStr c)))).flatten
    ++ ["END:VEVENT"])

/-- Encoding of the time component for the sort key: plain dates order
before datetimes of the same day.  Python raises TypeError when such a
pair is actually compared, which depends on the internal comparison
schedule of list.sort; the encoding totalises that case, and the theorems
below restrict themselves to the region where Python's comparison is
defined. -/
def timeKeyEnc : Option Time → List Nat
  | none => [0, 0, 0, 0, 0]
  | some t => [1, t.hour, t.minute, t.second, t.usec]

/-- Constructor tag of a value, used to totalise the summary component of
the sort key across value kinds. -/
def valueTag : Value → Nat
  | .null => 0
  | .vbool _ => 1
  | .num _ => 2
  | .vstr _ => 3
  | .vdate _ => 4
  | .vdatetime _ _ => 5
  | .vbytes _ => 6
  | .seq _ => 7
  | .vmap _ => 8

/-- Payload of the summary component of the sort key: for strings, the
code points, ordered exactly as Python compares strings. -/
def summaryKeyEnc : Value → List Nat
  | .vstr s => s.data.map Char.toNat
  | _ => []

/-- The sort key (item date, item summary) of build_icalendar, encoded as
a single lexicographically ordered list: date fields, then the time
component, then the summary.  On events with equal-kind dates and string
summaries this order coincides with Python's tuple comparison. -/
def sortKeyEnc (ne : NormalisedEvent) : List Nat :=
  [ne.date.date.year, ne.date.date.month, ne.date.date.day]
    ++ timeKeyEnc ne.date.time ++ [valueTag ne.summary] ++ summaryKeyEnc ne.summary

/-- The sort relation of the serialiser. -/
def sortKeyRel (a b : NormalisedEvent) : Prop :=
  sortKeyEnc a ≤ sortKeyEnc b

instance : DecidableRel sortKeyRel :=
  fun a b => inferInstanceAs (Decidable (sortKeyEnc a ≤ sortKeyEnc b))

instance : IsTotal NormalisedEvent sortKeyRel :=
  ⟨fun a b => le_total (sortKeyEnc a) (sortKeyEnc b)⟩

instance : IsTrans NormalisedEvent sortKeyRel :=
  ⟨fun _ _ _ => le_trans⟩

/-- list.sort with the (date, summary) key: a stable sort.  Insertion sort
with a non-strict comparison places an element before the first
equal-or-greater key, which preserves input order on ties exactly as
Python's stable sort does. -/
def pySortEvents (ns : List NormalisedEvent) : List NormalisedEvent :=
  ns.insertionSort sortKeyRel

/-- The serialisation half of build_icalendar, from already normalised
events: sort, emit header, event blocks and footer, join with CRLF and a
trailing terminator. -/
def serializeNormalised (now : String) (cfg : CalendarConfig)
    (ns : List NormalisedEvent) : Except NormError String := do
  let blocks ← (pySortEvents ns).mapM (eventBlock now)
  pure (String.intercalate crlf
    (headerLines cfg ++ blocks.flatten ++ ["END:VCALENDAR"]) ++ crlf)

/-- Build a string containing the iCalendar representation of the events
(build_icalendar in calendar.py).  The generation timestamp, read once
from the clock and formatted as YYYYMMDDTHHMMSSZ, is the now parameter;
the config argument models the cfg the source resolves via
config or CalendarConfig(). -/
def build_icalendar (now : String) (events : List Event)
    (config : CalendarConfig) : Except NormError String := do
  let normalised ← events.mapM (_normalise_event · config)
  serializeNormalised now config normalised

/-! Concrete inputs used by the counterexamples and witnesses below. -/

/-- A record whose name key is bound to the empty string and whose title is
bound to X; the explicit uid keeps the uid derivation away from the summary. -/
def c7Event : Event :=
  [("date", .vstr "2025-01-01"), ("uid", .vstr "u"),
   ("name", .vstr ""), ("title", .vstr "X")]

/-- A record whose title alone is bound, used by the C7 witness. -/
def c7wEvent : Event :=
  [("date", .vstr "2025-01-01"), ("uid", .vstr "u"), ("title", .vstr "T")]

/-- The canonical event c7wEvent normalises to. -/
def c7wNormalised : NormalisedEvent :=
  ⟨"u@catholic.calendar", .vstr "T", "", [.vstr "Celebration"], ⟨⟨2025, 1, 1⟩, none⟩⟩

/-- A record with an explicit uid containing two at signs. -/
def c5Event : Event := [("date", .vstr "2025-01-01"), ("uid", .vstr "a@b@c")]

/-- A record with an explicit at-free uid, used by the C5 witness. -/
def c5wEvent : Event := [("date", .vstr "2025-01-01"), ("uid", .vstr "u")]

/-- A configuration whose uid domain itself contains an at sign. -/
def c5BadDomainConfig : CalendarConfig := { domain := "a@b" }

/-- The canonical event c5wEvent normalises to. -/
def c5wNormalised : NormalisedEvent :=
  ⟨"u@catholic.calendar", .vstr "Unnamed Celebration", "",
   [.vstr "Celebration"], ⟨⟨2025, 1, 1⟩, none⟩⟩

/-- A record whose date is a datetime with a time-of-day component. -/
def c8DatetimeRecord : Event :=
  [("date", .vdatetime ⟨2025, 1, 1⟩ ⟨5, 0, 0, 0⟩), ("name", .vstr "Mary")]

/-- A record carrying the same calendar date as c8DatetimeRecord as a plain
date, with the same name and hence the same derived slug. -/
def c8DateRecord : Event :=
  [("date", .vdate ⟨2025, 1, 1⟩), ("name", .vstr "Mary")]

/-- Two canonical events sharing date and summary but differing elsewhere. -/
def c3TieA : NormalisedEvent :=
  ⟨"a@x", .vstr "A", "Rank: X", [.vstr "C"], ⟨⟨2025, 1, 1⟩, none⟩⟩

/-- The tie partner of c3TieA. -/
def c3TieB : NormalisedEvent :=
  ⟨"b@x", .vstr "A", "Rank: Y", [.vstr "C"], ⟨⟨2025, 1, 1⟩, none⟩⟩

/-- A canonical event with a key distinct from c3KeyB, for the C3 witness. -/
def c3KeyA : NormalisedEvent :=
  ⟨"a@x", .vstr "A", "", [.vstr "C"], ⟨⟨2025, 1, 2⟩, none⟩⟩

/-- A canonical event with a key distinct from c3KeyA. -/
def c3KeyB : NormalisedEvent :=
  ⟨"b@x", .vstr "B", "", [.vstr "C"], ⟨⟨2025, 1, 1⟩, none⟩⟩

/-- A record with no date and no start key. -/
def c2NoDateEvent : Event := [("name", .vstr "X")]

end CatCal

namespace CatCal

/-! General facts about Except used below. -/

theorem except_bind_ok {ε α β : Type} (x : Except ε α) (f : α → Except ε β) (b : β)
    (h : x >>= f = .ok b) : ∃ a, x = .ok a ∧ f a = .ok b := by
  cases x with
  | error e => exact Except.noConfusion h
  | ok a => exact ⟨a, rfl, h⟩

theorem except_bind_error {ε α β : Type} {P : ε → Prop} (x : Except ε α)
    (f : α → Except ε β) (e : ε)
    (hx : ∀ e', x = .error e' → P e')
    (hf : ∀ a, x = .ok a → ∀ e', f a = .error e' → P e')
    (h : x >>= f = .error e) : P e := by
  cases x with
  | error e' =>
    have hred : (Except.error e' >>= f : Except ε β) = Except.error e' := rfl
    rw [hred] at h
    exact Except.error.inj h ▸ hx e' rfl
  | ok a => exact hf a rfl e h

/-- Sanity check against the test vector documented for the uuid module:
uuid5 of python.org under the DNS namespace.  It pins down the SHA-1 and
UUID formatting embedded here. -/
theorem uuid5_dns_python_org_vector :
    uuid5Str namespaceDNS "python.org" = "886313e1-3b8a-5372-9b90-0c9aee199e5d" := by
  decide

/-! Line folding: auxiliary lemmas and claim C4. -/

theorem foldRemainder_frag (r : List Char) :
    ∀ f ∈ foldRemainder r, ∃ t, f = ' ' :: t ∧ t.length ≤ 74 := by
  induction r using foldRemainder.induct with
  | case1 r h ih =>
    rw [foldRemainder, dif_pos h]
    intro f hf
    rcases List.mem_cons.mp hf with rfl | hf'
    · exact ⟨_, rfl, by simp [maxLineLength]⟩
    · exact ih f hf'
  | case2 r h =>
    rw [foldRemainder, dif_neg h]
    intro f hf
    rw [List.mem_singleton.mp hf]
    exact ⟨r, rfl, by simp [maxLineLength] at h; omega⟩

theorem foldRemainder_rejoin (r : List Char) :
    ((foldRemainder r).map List.tail).flatten = r := by
  induction r using foldRemainder.induct with
  | case1 r h ih =>
    rw [foldRemainder, dif_pos h]
    simp only [List.map_cons, List.flatten_cons, List.tail_cons, ih,
      List.take_append_drop]
  | case2 r h =>
    rw [foldRemainder, dif_neg h]
    simp

/-- C4: folding leaves lines of length at most 75 unchanged; a longer line
is split into the first 75 characters followed by fragments of one leading
space plus at most 74 characters; every physical fragment has length at
most 75; and the first fragment concatenated with the space-stripped
continuation fragments reconstructs the original line exactly. -/
theorem C4_fold_line_correct (line : List Char) :
    (line.length ≤ 75 → foldLineChars line = [line]) ∧
    (line.length > 75 →
      (foldLineChars line).head? = some (line.take 75) ∧
      ∀ f ∈ (foldLineChars line).tail, ∃ t, f = ' ' :: t ∧ t.length ≤ 74) ∧
    (∀ f ∈ foldLineChars line, f.length ≤ 75) ∧
    unfoldChunks (foldLineChars line) = line := by
  refine ⟨?_, ?_, ?_, ?_⟩
  · intro h
    rw [foldLineChars, if_pos (by simpa [maxLineLength] using h)]
  · intro h
    rw [foldLineChars, if_neg (by simp [maxLineLength]; omega)]
    refine ⟨by simp [maxLineLength], ?_⟩
    simpa [maxLineLength] using foldRemainder_frag (line.drop 75)
  · intro f hf
    rw [foldLineChars] at hf
    split at hf
    · rw [List.mem_singleton.mp hf]
      simpa [maxLineLength] using by assumption
    · rcases List.mem_cons.mp hf with rfl | hf'
      · simp [maxLineLength]
      · obtain ⟨t, rfl, ht⟩ := foldRemainder_frag _ f hf'
        simp
        omega
  · rw [foldLineChars]
    split
    · simp [unfoldChunks]
    · simp only [unfoldChunks, foldRemainder_rejoin, List.take_append_drop]

/-- Witness for C4 at a short and a long concrete line. -/
theorem C4_fold_line_correct_witness :
    foldLineChars (List.replicate 10 'a') = [List.replicate 10 'a'] ∧
    unfoldChunks (foldLineChars (List.replicate 100 'b')) = List.replicate 100 'b' :=
  ⟨(C4_fold_line_correct _).1 (by decide), (C4_fold_line_correct _).2.2.2⟩

/-! Text escaping: auxiliary lemmas and claim C6. -/

theorem escapeChars_append (a b : List Char) :
    escapeChars (a ++ b) = escapeChars a ++ escapeChars b := by
  simp [escapeChars, replaceChar, List.flatMap_append]

theorem escapeChars_singleton (c : Char) : escapeChars [c] = escCharSpec c := by
  by_cases h1 : c = '\\'
  · subst h1; decide
  by_cases h2 : c = '\n'
  · subst h2; decide
  by_cases h3 : c = '\r'
  · subst h3; decide
  by_cases h4 : c = ','
  · subst h4; decide
  by_cases h5 : c = ';'
  · subst h5; decide
  simp [escapeChars, replaceChar, escCharSpec, h1, h2, h3, h4, h5]

theorem escapeChars_eq_flatMap (l : List Char) :
    escapeChars l = l.flatMap escCharSpec := by
  induction l with
  | nil => rfl
  | cons c t ih =>
    have hc : c :: t = [c] ++ t := rfl
    rw [hc, escapeChars_append, List.flatMap_append, escapeChars_singleton, ih]
    simp

theorem flatMap_escCharSpec_id (l : List Char) (h : ∀ c ∈ l, c ∉ escapeSpecials) :
    l.flatMap escCharSpec = l := by
  induction l with
  | nil => rfl
  | cons c t ih =>
    have hc := h c (List.mem_cons_self c t)
    simp only [escapeSpecials, List.mem_cons, List.not_mem_nil, or_false, not_or] at hc
    rw [List.flatMap_cons, show escCharSpec c = [c] from by
      simp [escCharSpec, hc.1, hc.2.1, hc.2.2.1, hc.2.2.2.1, hc.2.2.2.2],
      ih (fun x hx => h x (List.mem_cons_of_mem _ hx))]
    rfl

/-- C6: the five sequential replacement passes of _escape_text, in source
order backslash, newline, carriage return, comma, semicolon, amount to one
simultaneous per-character escaping rule, and a string containing none of
the five special characters is returned unchanged. -/
theorem C6_escape_rules :
    (∀ s : String, _escape_text s = ⟨s.data.flatMap escCharSpec⟩) ∧
    (∀ s : String, (∀ c ∈ s.data, c ∉ escapeSpecials) → _escape_text s = s) := by
  have h1 : ∀ s : String, _escape_text s = ⟨s.data.flatMap escCharSpec⟩ := by
    intro s
    rw [_escape_text, escapeChars_eq_flatMap]
  refine ⟨h1, fun s hs => ?_⟩
  rw [h1 s, flatMap_escCharSpec_id s.data hs]

/-- Witness for C6 at concrete strings with and without special characters. -/
theorem C6_escape_rules_witness :
    _escape_text "plain text" = "plain text" ∧
    _escape_text "a,b" = ⟨"a,b".data.flatMap escCharSpec⟩ :=
  ⟨C6_escape_rules.2 "plain text" (by decide), C6_escape_rules.1 "a,b"⟩

/-! The stringifier: claim C9 and error classification. -/

theorem except_bind_ok_eq_map {ε α β : Type} (x : Except ε α) (g : α → β) :
    (x >>= fun a => Except.ok (g a)) = x.map g := by
  cases x <;> rfl

theorem ok_bind {ε α β : Type} (a : α) (f : α → Except ε β) :
    (Except.ok a >>= f) = f a := rfl

theorem error_bind {ε α β : Type} (e : ε) (f : α → Except ε β) :
    ((Except.error e : Except ε α) >>= f) = .error e := rfl

theorem except_map_ok {ε α β : Type} (g : α → β) (a : α) :
    (Except.ok a : Except ε α).map g = .ok (g a) := rfl

theorem except_map_error {ε α β : Type} (g : α → β) (e : ε) :
    (Except.error e : Except ε α).map g = .error e := rfl

theorem stringifySeq_eq_filter_mapM (l : List Value) :
    stringifySeq l = (l.filter (fun v => !isNullValue v)).mapM _stringify := by
  induction l with
  | nil => rfl
  | cons v t ih =>
    simp only [stringifySeq, List.filter_cons]
    by_cases hv : isNullValue v
    · rw [if_pos hv, if_neg (by simp [hv]), ih]
    · rw [if_neg hv, if_pos (by simp [hv]), List.mapM_cons, ih]
      cases _stringify v with
      | error e => rw [error_bind, error_bind]
      | ok s =>
        rw [ok_bind, ok_bind, except_bind_ok_eq_map]
        rfl

theorem stringifyPairs_eq_filter_mapM (l : List (String × Value)) :
    stringifyPairs l =
      (l.filter (fun kv => !isNullValue kv.2)).mapM
        (fun kv => (_stringify kv.2).map (fun s => kv.1 ++ ": " ++ s)) := by
  induction l with
  | nil => rfl
  | cons kv t ih =>
    obtain ⟨k, v⟩ := kv
    simp only [stringifyPairs, List.filter_cons]
    by_cases hv : isNullValue v
    · rw [if_pos hv, if_neg (by simp [hv]), ih]
    · rw [if_neg hv, if_pos (by simp [hv]), List.mapM_cons, ih]
      dsimp only
      cases _stringify v with
      | error e => rw [error_bind, except_map_error, error_bind]
      | ok s =>
        rw [ok_bind, except_map_ok, ok_bind, except_bind_ok_eq_map]
        rfl

/-- C9 amended: the stringifier maps null to the empty string, booleans to
Yes or No, numbers to decimal text, strings to themselves, sequences to the
comma-joined stringification of their non-null elements and mappings to the
semicolon-joined key-colon-value pairs with non-null values; but every other
value (structured dates, datetimes, bytes) makes the json.dumps fallback
raise TypeError, so no generic dump is ever produced. -/
theorem C9_stringify_rules :
    (_stringify .null = .ok "") ∧
    (∀ b, _stringify (.vbool b) = .ok (if b then "Yes" else "No")) ∧
    (∀ n : Int, _stringify (.num n) = .ok (toString n)) ∧
    (∀ s, _stringify (.vstr s) = .ok s) ∧
    (∀ l, _stringify (.seq l) =
      ((l.filter (fun v => !isNullValue v)).mapM _stringify).map
        (String.intercalate ", ")) ∧
    (∀ l, _stringify (.vmap l) =
      ((l.filter (fun kv => !isNullValue kv.2)).mapM
        (fun kv => (_stringify kv.2).map (fun s => kv.1 ++ ": " ++ s))).map
        (String.intercalate "; ")) ∧
    (∀ d, _stringify (.vdate d) = .error .unsupportedValue) ∧
    (∀ d t, _stringify (.vdatetime d t) = .error .unsupportedValue) ∧
    (∀ l, _stringify (.vbytes l) = .error .unsupportedValue) := by
  refine ⟨by simp [_stringify], fun b => by simp [_stringify], fun n => by simp [_stringify],
    fun s => by simp [_stringify], fun l => ?_, fun l => ?_,
    fun d => by simp [_stringify], fun d t => by simp [_stringify],
    fun l => by simp [_stringify]⟩
  · simp only [_stringify, stringifySeq_eq_filter_mapM, except_bind_ok_eq_map]
  · simp only [_stringify, stringifyPairs_eq_filter_mapM, except_bind_ok_eq_map]

/-- C9 counterexample: a bytes value, excluded from the Sequence branch and
not JSON serialisable, reaches the fallback and raises instead of being
rendered as a structured dump. -/
theorem C9_fallback_raises :
    _stringify (.vbytes [104, 105]) = .error .unsupportedValue := by
  simp [_stringify]

mutual

theorem stringify_error_eq : ∀ (v : Value) (e : NormError),
    _stringify v = .error e → e = .unsupportedValue
  | .null, _, h => by simp [_stringify] at h
  | .vbool _, _, h => by simp [_stringify] at h
  | .num _, _, h => by simp [_stringify] at h
  | .vstr _, _, h => by simp [_stringify] at h
  | .vdate _, e, h => by
    simp only [_stringify, Except.error.injEq] at h
    exact h.symm
  | .vdatetime _ _, e, h => by
    simp only [_stringify, Except.error.injEq] at h
    exact h.symm
  | .vbytes _, e, h => by
    simp only [_stringify, Except.error.injEq] at h
    exact h.symm
  | .seq l, e, h => by
    simp only [_stringify] at h
    refine except_bind_error (P := fun x => x = NormError.unsupportedValue) _ _ _
      (fun e' he' => stringifySeq_error_eq l e' he')
      (fun a _ e' he' => ?_) h
    exact Except.noConfusion he'
  | .vmap l, e, h => by
    simp only [_stringify] at h
    refine except_bind_error (P := fun x => x = NormError.unsupportedValue) _ _ _
      (fun e' he' => stringifyPairs_error_eq l e' he')
      (fun a _ e' he' => ?_) h
    exact Except.noConfusion he'

theorem stringifySeq_error_eq : ∀ (l : List Value) (e : NormError),
    stringifySeq l = .error e → e = .unsupportedValue
  | [], _, h => by simp [stringifySeq] at h
  | v :: t, e, h => by
    simp only [stringifySeq] at h
    split at h
    · exact stringifySeq_error_eq t e h
    · refine except_bind_error (P := fun x => x = NormError.unsupportedValue) _ _ _
          (fun e' he' => stringify_error_eq v e' he')
        (fun s _ e' he' => ?_) h
      refine except_bind_error (P := fun x => x = NormError.unsupportedValue) _ _ _
          (fun e'' he'' => stringifySeq_error_eq t e'' he'')
        (fun r _ e'' he'' => ?_) he'
      exact Except.noConfusion he''

theorem stringifyPairs_error_eq : ∀ (l : List (String × Value)) (e : NormError),
    stringifyPairs l = .error e → e = .unsupportedValue
  | [], _, h => by simp [stringifyPairs] at h
  | (k, v) :: t, e, h => by
    simp only [stringifyPairs] at h
    split at h
    · exact stringifyPairs_error_eq t e h
    · refine except_bind_error (P := fun x => x = NormError.unsupportedValue) _ _ _
          (fun e' he' => stringify_error_eq v e' he')
        (fun s _ e' he' => ?_) h
      refine except_bind_error (P := fun x => x = NormError.unsupportedValue) _ _ _
          (fun e'' he'' => stringifyPairs_error_eq t e'' he'')
        (fun r _ e'' he'' => ?_) he'
      exact Except.noConfusion he''

end

theorem pairLines_error_eq : ∀ (l : List (String × Value)) (e : NormError),
    pairLines l = .error e → e = .unsupportedValue
  | [], _, h => by simp [pairLines] at h
  | (lab, v) :: t, e, h => by
    simp only [pairLines] at h
    split at h
    · exact pairLines_error_eq t e h
    · refine except_bind_error (P := fun x => x = NormError.unsupportedValue) _ _ _
          (fun e' he' => stringify_error_eq v e' he')
        (fun s _ e' he' => ?_) h
      refine except_bind_error (P := fun x => x = NormError.unsupportedValue) _ _ _
          (fun e'' he'' => pairLines_error_eq t e'' he'')
        (fun r _ e'' he'' => ?_) he'
      exact Except.noConfusion he''

/-! Classification of _parse_date results, and the error behaviour of the
two halves of _normalise_event. -/

theorem parse_date_error_iff (v : Value) (e : NormError) :
    _parse_date v = .error e ↔ e = .unparseableDate ∧ acceptedDateShape v = false := by
  cases v with
  | null => simp [_parse_date, acceptedDateShape, eq_comm]
  | vdate d => simp [_parse_date, acceptedDateShape]
  | vdatetime d t => simp [_parse_date, acceptedDateShape]
  | vbool b =>
    have hb : _parse_date (.vbool b) = .ok ⟨⟨1970, 1, 1⟩, none⟩ := by
      cases b <;> decide
    simp [hb, acceptedDateShape]
  | num n =>
    simp only [_parse_date, acceptedDateShape, utcfromtimestampDate]
    split
    case isTrue h => simp [Except.map, h]
    case isFalse h => simp [Except.map, h, eq_comm]
  | vstr s =>
    simp only [_parse_date, acceptedDateShape]
    cases h1 : isoDateOfChars (s.data.take 10) with
    | some d => simp [h1]
    | none =>
      cases h2 : isoDatetimeOfChars s.data with
      | some pd => simp [h1, h2]
      | none => simp [h1, h2, eq_comm]
  | vbytes l => simp [_parse_date, acceptedDateShape, eq_comm]
  | seq l => simp [_parse_date, acceptedDateShape, eq_comm]
  | vmap l => simp [_parse_date, acceptedDateShape, eq_comm]

theorem parse_date_ok_of_accepted (v : Value) (h : acceptedDateShape v = true) :
    ∃ pd, _parse_date v = .ok pd := by
  cases hp : _parse_date v with
  | ok pd => exact ⟨pd, rfl⟩
  | error e =>
    have hc := (parse_date_error_iff v e).mp hp
    rw [hc.2] at h
    exact absurd h (by simp)

theorem resolveSlug_error (ev : Event) (summary : Value) (e : NormError)
    (h : resolveSlug ev summary = .error e) : e = .attributeError := by
  unfold resolveSlug at h
  split at h
  · exact Except.noConfusion h
  · split at h
    · exact Except.noConfusion h
    · exact (Except.error.inj h).symm

theorem resolveUid_error (ev : Event) (cfg : CalendarConfig) (pd : PyDate)
    (summary : Value) (e : NormError)
    (h : resolveUid ev cfg pd summary = .error e) : e = .attributeError := by
  unfold resolveUid at h
  dsimp only at h
  split at h
  · exact Except.noConfusion h
  · cases hs : resolveSlug ev summary with
    | error e' =>
      rw [hs, except_map_error] at h
      exact Except.error.inj h ▸ resolveSlug_error ev summary e' hs
    | ok slug =>
      rw [hs, except_map_ok] at h
      exact Except.noConfusion h

theorem commemLinesOf_error (ev : Event) (e : NormError)
    (h : commemLinesOf ev = .error e) : e = .unsupportedValue := by
  unfold commemLinesOf at h
  dsimp only at h
  split at h
  · cases hs : _stringify (pyOr (getv ev "commemorations")
        (getv ev "secondaryCelebrations")) with
    | error e' =>
      rw [hs, except_map_error] at h
      exact Except.error.inj h ▸ stringify_error_eq _ e' hs
    | ok s =>
      rw [hs, except_map_ok] at h
      exact Except.noConfusion h
  · exact Except.noConfusion h

theorem metaLinesOf_error (ev : Event) (e : NormError)
    (h : metaLinesOf ev = .error e) : e = .unsupportedValue := by
  unfold metaLinesOf at h
  dsimp only at h
  split at h
  · cases hs : _stringify (pyOr (getv ev "metadata") (getv ev "meta")) with
    | error e' =>
      rw [hs, except_map_error] at h
      exact Except.error.inj h ▸ stringify_error_eq _ e' hs
    | ok s =>
      rw [hs, except_map_ok] at h
      exact Except.noConfusion h
  · exact Except.noConfusion h

theorem categoriesOf_error (category : Value) (e : NormError)
    (h : categoriesOf category = .error e) : e = .categoryTypeError := by
  unfold categoriesOf at h
  split at h
  · exact Except.noConfusion h
  · exact Except.noConfusion h
  · exact Except.noConfusion h
  · exact Except.noConfusion h
  · exact (Except.error.inj h).symm

theorem rest_error_mem (ev : Event) (cfg : CalendarConfig) (pd : PyDate)
    (e : NormError) (h : _normalise_event_rest ev cfg pd = .error e) :
    e = .attributeError ∨ e = .unsupportedValue ∨ e = .categoryTypeError := by
  unfold _normalise_event_rest at h
  refine except_bind_error
    (P := fun x => x = .attributeError ∨ x = .unsupportedValue ∨ x = .categoryTypeError)
    _ _ _ (fun e' he' => Or.inl (resolveUid_error _ _ _ _ e' he'))
    (fun uid _ e' he' => ?_) h
  refine except_bind_error
    (P := fun x => x = .attributeError ∨ x = .unsupportedValue ∨ x = .categoryTypeError)
    _ _ _ (fun e2 he2 => Or.inr (Or.inl (commemLinesOf_error _ e2 he2)))
    (fun cl _ e2 he2 => ?_) he'
  refine except_bind_error
    (P := fun x => x = .attributeError ∨ x = .unsupportedValue ∨ x = .categoryTypeError)
    _ _ _ (fun e3 he3 => Or.inr (Or.inl (metaLinesOf_error _ e3 he3)))
    (fun ml _ e3 he3 => ?_) he2
  refine except_bind_error
    (P := fun x => x = .attributeError ∨ x = .unsupportedValue ∨ x = .categoryTypeError)
    _ _ _ (fun e4 he4 => Or.inr (Or.inl (pairLines_error_eq _ e4 he4)))
    (fun lab _ e4 he4 => ?_) he3
  refine except_bind_error
    (P := fun x => x = .attributeError ∨ x = .unsupportedValue ∨ x = .categoryTypeError)
    _ _ _ (fun e5 he5 => Or.inr (Or.inr (categoriesOf_error _ e5 he5)))
    (fun cats _ e5 he5 => ?_) he4
  exact Except.noConfusion he5

theorem rest_ok_summary_date (ev : Event) (cfg : CalendarConfig) (pd : PyDate)
    (ne : NormalisedEvent) (h : _normalise_event_rest ev cfg pd = .ok ne) :
    ne.summary = resolveSummary ev ∧ ne.date = pd := by
  unfold _normalise_event_rest at h
  obtain ⟨uid, hu, h⟩ := except_bind_ok _ _ _ h
  obtain ⟨cl, hc, h⟩ := except_bind_ok _ _ _ h
  obtain ⟨ml, hm, h⟩ := except_bind_ok _ _ _ h
  obtain ⟨lab, hl, h⟩ := except_bind_ok _ _ _ h
  obtain ⟨cats, hcats, h⟩ := except_bind_ok _ _ _ h
  cases Except.ok.inj h
  exact ⟨rfl, rfl⟩

theorem rest_ok_uid (ev : Event) (cfg : CalendarConfig) (pd : PyDate)
    (ne : NormalisedEvent) (h : _normalise_event_rest ev cfg pd = .ok ne) :
    resolveUid ev cfg pd (resolveSummary ev) = .ok ne.uid := by
  unfold _normalise_event_rest at h
  obtain ⟨uid, hu, h⟩ := except_bind_ok _ _ _ h
  obtain ⟨cl, hc, h⟩ := except_bind_ok _ _ _ h
  obtain ⟨ml, hm, h⟩ := except_bind_ok _ _ _ h
  obtain ⟨lab, hl, h⟩ := except_bind_ok _ _ _ h
  obtain ⟨cats, hcats, h⟩ := except_bind_ok _ _ _ h
  cases Except.ok.inj h
  exact hu

/-- C2: normalisation fails with the missing-date error exactly when the
record has neither a date nor a start key; it fails with the
unparseable-date error exactly when a date value is selected (date key
first, else start key) whose shape is not accepted; and the first failing
record's error becomes the result of the whole serialisation call, so no
partial output is produced. -/
theorem C2_error_taxonomy :
    (∀ (ev : Event) (cfg : CalendarConfig),
      _normalise_event ev cfg = .error .missingDate ↔
        hasKey ev "date" = false ∧ hasKey ev "start" = false) ∧
    (∀ (ev : Event) (cfg : CalendarConfig),
      _normalise_event ev cfg = .error .unparseableDate ↔
        ∃ v, selectedDateValue ev = some v ∧ acceptedDateShape v = false) ∧
    (∀ (now : String) (cfg : CalendarConfig) (pre : List Event) (ev : Event)
      (post : List Event) (err : NormError),
      (∀ x ∈ pre, (_normalise_event x cfg).isOk = true) →
      _normalise_event ev cfg = .error err →
      build_icalendar now (pre ++ ev :: post) cfg = .error err) := by
  have hnotMissing : ∀ (w : Value) (cfg : CalendarConfig) (ev : Event),
      (_parse_date w >>= _normalise_event_rest ev cfg) = .error .missingDate → False := by
    intro w cfg ev h
    exact except_bind_error (P := fun e' => e' = NormError.missingDate → False) _ _ _
      (fun e' he' hM => by
        have hc := (parse_date_error_iff _ _).mp he'
        rw [hM] at hc
        exact NormError.noConfusion hc.1)
      (fun pd _ e' he' hM => by
        rcases rest_error_mem _ _ _ _ he' with h' | h' | h' <;> rw [hM] at h' <;>
          exact NormError.noConfusion h')
      h rfl
  refine ⟨fun ev cfg => ?_, fun ev cfg => ?_, ?_⟩
  · constructor
    · intro h
      unfold _normalise_event resolveDateValue at h
      by_cases h1 : hasKey ev "date" = true
      · rw [if_pos h1] at h
        exact absurd h (fun hh => hnotMissing _ cfg ev hh)
      · rw [if_neg h1] at h
        by_cases h2 : hasKey ev "start" = true
        · rw [if_pos h2] at h
          exact absurd h (fun hh => hnotMissing _ cfg ev hh)
        · exact ⟨by simpa using h1, by simpa using h2⟩
    · rintro ⟨h1, h2⟩
      unfold _normalise_event resolveDateValue
      rw [if_neg (by simp [h1]), if_neg (by simp [h2]), error_bind]
  · constructor
    · intro h
      unfold _normalise_event resolveDateValue at h
      by_cases h1 : hasKey ev "date" = true
      · rw [if_pos h1] at h
        refine except_bind_error
          (P := fun e' => e' = NormError.unparseableDate →
            ∃ v, selectedDateValue ev = some v ∧ acceptedDateShape v = false)
          _ _ _ ?_ ?_ h rfl
        · intro e' he' _
          have hc := (parse_date_error_iff _ _).mp he'
          exact ⟨getv ev "date", by simp [selectedDateValue, h1], hc.2⟩
        · intro pd _ e' he' hU
          rcases rest_error_mem _ _ _ _ he' with h' | h' | h' <;> rw [hU] at h' <;>
            exact NormError.noConfusion h'
      · rw [if_neg h1] at h
        by_cases h2 : hasKey ev "start" = true
        · rw [if_pos h2] at h
          refine except_bind_error
            (P := fun e' => e' = NormError.unparseableDate →
              ∃ v, selectedDateValue ev = some v ∧ acceptedDateShape v = false)
            _ _ _ ?_ ?_ h rfl
          · intro e' he' _
            have hc := (parse_date_error_iff _ _).mp he'
            exact ⟨getv ev "start", by simp [selectedDateValue, h1, h2], hc.2⟩
          · intro pd _ e' he' hU
            rcases rest_error_mem _ _ _ _ he' with h' | h' | h' <;> rw [hU] at h' <;>
              exact NormError.noConfusion h'
        · rw [if_neg h2, error_bind] at h
          exact absurd (Except.error.inj h) (by simp)
    · rintro ⟨v, hv, hacc⟩
      unfold _normalise_event resolveDateValue
      unfold selectedDateValue at hv
      split at hv
      case isTrue hk =>
        cases Option.some.inj hv
        rw [if_pos hk, (parse_date_error_iff _ _).mpr ⟨rfl, hacc⟩, error_bind]
      case isFalse hk =>
        split at hv
        case isTrue hk2 =>
          cases Option.some.inj hv
          rw [if_neg hk, if_pos hk2, (parse_date_error_iff _ _).mpr ⟨rfl, hacc⟩,
            error_bind]
        case isFalse hk2 => exact Option.noConfusion hv
  · intro now cfg pre ev post err hpre hev
    have hm : ∀ (pre : List Event), (∀ x ∈ pre, (_normalise_event x cfg).isOk = true) →
        (pre ++ ev :: post).mapM (fun x => _normalise_event x cfg) = .error err := by
      intro pre
      induction pre with
      | nil =>
        intro _
        rw [List.nil_append, List.mapM_cons, hev, error_bind]
      | cons a t ih =>
        intro hok
        obtain ⟨b, hb⟩ : ∃ b, _normalise_event a cfg = .ok b := by
          cases hx : _normalise_event a cfg with
          | error e =>
            have hcontr := hok a (List.mem_cons_self a t)
            rw [hx] at hcontr
            exact absurd hcontr (by simp [Except.isOk, Except.toBool])
          | ok b => exact ⟨b, rfl⟩
        rw [List.cons_append, List.mapM_cons, hb, ok_bind,
          ih (fun x hx => hok x (List.mem_cons_of_mem a hx)), error_bind]
    unfold build_icalendar
    rw [hm pre hpre, error_bind]

/-- Witness for C2: a record with neither date nor start key fails with
the missing-date error, and serialising a list containing it yields that
error and no output. -/
theorem C2_error_taxonomy_witness :
    _normalise_event c2NoDateEvent defaultConfig = .error .missingDate ∧
    build_icalendar "20250101T000000Z" [c2NoDateEvent] defaultConfig =
      .error .missingDate := by
  have h1 : _normalise_event c2NoDateEvent defaultConfig = .error .missingDate :=
    (C2_error_taxonomy.1 c2NoDateEvent defaultConfig).mpr (by decide)
  exact ⟨h1, C2_error_taxonomy.2.2 "20250101T000000Z" defaultConfig [] c2NoDateEvent []
    .missingDate (by simp) h1⟩

/-! Summary resolution: claim C7. -/

theorem truthy_pyOr (a b : Value) (hb : truthy b = true) :
    truthy (pyOr a b) = true := by
  unfold pyOr
  split
  · assumption
  · exact hb

theorem resolveSummary_eq_firstTruthy (ev : Event) :
    resolveSummary ev =
      (firstTruthyKey ev ["name", "title", "celebration", "id"]).getD
        (.vstr "Unnamed Celebration") := by
  simp only [resolveSummary, pyOr]
  by_cases h1 : truthy (getv ev "name") = true
  · simp [firstTruthyKey, h1]
  · simp only [if_neg h1]
    by_cases h2 : truthy (getv ev "title") = true
    · simp [firstTruthyKey, h1, h2]
    · simp only [if_neg h2]
      by_cases h3 : truthy (getv ev "celebration") = true
      · simp [firstTruthyKey, h1, h2, h3]
      · simp only [if_neg h3]
        by_cases h4 : truthy (getv ev "id") = true
        · simp [firstTruthyKey, h1, h2, h3, h4]
        · simp [firstTruthyKey, h1, h2, h3, h4]

theorem truthy_resolveSummary (ev : Event) : truthy (resolveSummary ev) = true :=
  truthy_pyOr _ _ (truthy_pyOr _ _ (truthy_pyOr _ _ (truthy_pyOr _ _ (by decide))))

/-- C7 amended: the canonical summary is the first truthy (not merely
non-null) value among the keys name, title, celebration, id, in that
order, with the literal default when all are absent or falsy; the
resulting summary is always truthy, in particular neither null nor the
empty string.  The counterexample shows truthiness, not non-nullness, is
the selection rule. -/
theorem C7_summary_resolution (ev : Event) (cfg : CalendarConfig)
    (ne : NormalisedEvent) (h : _normalise_event ev cfg = .ok ne) :
    ne.summary =
      (firstTruthyKey ev ["name", "title", "celebration", "id"]).getD
        (.vstr "Unnamed Celebration") ∧
    truthy ne.summary = true ∧ ne.summary ≠ .null ∧ ne.summary ≠ .vstr "" := by
  unfold _normalise_event at h
  obtain ⟨pd, hpd, h⟩ := except_bind_ok _ _ _ h
  have hs := (rest_ok_summary_date _ _ _ _ h).1
  have ht : truthy ne.summary = true := by rw [hs]; exact truthy_resolveSummary ev
  refine ⟨by rw [hs, resolveSummary_eq_firstTruthy], ht, ?_, ?_⟩
  · intro heq
    rw [heq] at ht
    exact Bool.noConfusion ht
  · intro heq
    rw [heq] at ht
    simp [truthy] at ht

/-- Witness for C7 at a record whose only summary-relevant key is title. -/
theorem C7_summary_resolution_witness :
    c7wNormalised.summary =
      (firstTruthyKey c7wEvent ["name", "title", "celebration", "id"]).getD
        (.vstr "Unnamed Celebration") ∧
    truthy c7wNormalised.summary = true ∧ c7wNormalised.summary ≠ .null ∧
      c7wNormalised.summary ≠ .vstr "" :=
  C7_summary_resolution c7wEvent defaultConfig c7wNormalised rfl

/-- C7 counterexample: with the name key bound to the empty string and the
title bound to X, the code resolves the summary to X, while the claim's
first-non-null rule picks the empty string bound to name. -/
theorem C7_first_non_null_counterexample :
    (_normalise_event c7Event defaultConfig).map (fun ne => ne.summary) =
      .ok (.vstr "X") ∧
    summaryFirstNonNull c7Event = .vstr "" :=
  ⟨rfl, rfl⟩

/-! Uid shape: claim C5. -/

theorem hexDigit_ne_at (n : Nat) : hexDigit n ≠ '@' := by
  have h : n % 16 < 16 := Nat.mod_lt _ (by norm_num)
  unfold hexDigit
  generalize n % 16 = k at h
  interval_cases k <;> decide

theorem at_not_mem_hexBytes (bytes : List Nat) :
    '@' ∉ bytes.flatMap hexByte := by
  intro h
  obtain ⟨b, _, hb⟩ := List.mem_flatMap.mp h
  unfold hexByte at hb
  rcases List.mem_cons.mp hb with h' | h'
  · exact hexDigit_ne_at _ h'.symm
  · rcases List.mem_cons.mp h' with h'' | h''
    · exact hexDigit_ne_at _ h''.symm
    · exact List.not_mem_nil _ h''

theorem uuid5Str_no_at (ns : List Nat) (name : String) :
    '@' ∉ (uuid5Str ns name).data := by
  intro h
  unfold uuid5Str uuidFormat at h
  dsimp only at h
  have hhx := at_not_mem_hexBytes (uuid5Bytes ns name)
  rcases List.mem_append.mp h with h | h
  · rcases List.mem_append.mp h with h | h
    · rcases List.mem_append.mp h with h | h
      · rcases List.mem_append.mp h with h | h
        · exact hhx (List.mem_of_mem_take h)
        · rcases List.mem_cons.mp h with h | h
          · exact absurd h (by decide)
          · exact hhx (List.mem_of_mem_drop (List.mem_of_mem_take h))
      · rcases List.mem_cons.mp h with h | h
        · exact absurd h (by decide)
        · exact hhx (List.mem_of_mem_drop (List.mem_of_mem_take h))
    · rcases List.mem_cons.mp h with h | h
      · exact absurd h (by decide)
      · exact hhx (List.mem_of_mem_drop (List.mem_of_mem_take h))
  · rcases List.mem_cons.mp h with h | h
    · exact absurd h (by decide)
    · exact hhx (List.mem_of_mem_drop h)

/-- C5 amended: provided the configured domain contains no at sign and the
string form of any explicit uid or identifier value contains at most one,
every uid produced by normalisation contains exactly one at sign.  The
counterexample below shows the restriction on explicit uids is necessary:
a value already containing at signs is kept verbatim. -/
theorem C5_uid_single_at (ev : Event) (cfg : CalendarConfig)
    (ne : NormalisedEvent)
    (hdom : cfg.domain.data.count '@' = 0)
    (hexp : ∀ s, resolveExplicitUid ev = some s → s.data.count '@' ≤ 1)
    (h : _normalise_event ev cfg = .ok ne) :
    ne.uid.data.count '@' = 1 := by
  unfold _normalise_event at h
  obtain ⟨pd, hpd, h⟩ := except_bind_ok _ _ _ h
  have hu := rest_ok_uid _ _ _ _ h
  unfold resolveUid at hu
  dsimp only at hu
  split at hu
  case isTrue ht =>
    have hs := hexp (pyStr (pyOr (getv ev "uid") (getv ev "identifier")))
      (by simp only [resolveExplicitUid]; rw [if_pos ht])
    rw [← Except.ok.inj hu]
    split
    case isTrue hc =>
      have hm : '@' ∈ (pyStr (pyOr (getv ev "uid") (getv ev "identifier"))).data := by
        simpa using hc
      have h1 := List.count_pos_iff.mpr hm
      omega
    case isFalse hc =>
      have hm : '@' ∉ (pyStr (pyOr (getv ev "uid") (getv ev "identifier"))).data := by
        simpa using hc
      rw [String.data_append, String.data_append, List.count_append, List.count_append,
        List.count_eq_zero.mpr hm, hdom]
      decide
  case isFalse ht =>
    cases hsl : resolveSlug ev (resolveSummary ev) with
    | error e =>
      rw [hsl, except_map_error] at hu
      exact Except.noConfusion hu
    | ok slug =>
      rw [hsl, except_map_ok] at hu
      rw [← Except.ok.inj hu]
      rw [String.data_append, String.data_append, List.count_append, List.count_append,
        List.count_eq_zero.mpr (uuid5Str_no_at namespaceURL _), hdom]
      decide

/-- C5 counterexample: an explicit uid value already containing at signs is
used verbatim, so the record with uid a@b@c yields a uid containing two at
signs, not exactly one; and a domain containing an at sign likewise yields
two at signs in a derived uid. -/
theorem C5_double_at_counterexample :
    (_normalise_event c5Event defaultConfig).map
      (fun ne => ne.uid.data.count '@') = .ok 2 ∧
    (_normalise_event c8DateRecord c5BadDomainConfig).map
      (fun ne => ne.uid.data.count '@') = .ok 2 := ⟨rfl, rfl⟩

/-- Witness for C5 at a record with an at-free explicit uid under the
default domain. -/
theorem C5_uid_single_at_witness :
    c5wNormalised.uid.data.count '@' = 1 := by
  have hexp : ∀ s, resolveExplicitUid c5wEvent = some s → s.data.count '@' ≤ 1 := by
    intro s hs
    have h' : "u" = s := Option.some.inj hs
    rw [← h']
    decide
  exact C5_uid_single_at c5wEvent defaultConfig c5wNormalised (by decide) hexp rfl

set_option maxHeartbeats 2000000 in
/-- C8: the two records resolve to the same calendar date 2025-01-01 and
the same derived slug mary, with no explicit identifier, yet normalisation
derives different uids: isinstance(value, date) is true of datetime values
too, so the first branch of _parse_date returns the datetime untruncated
(the dedicated datetime branch below it is dead code) and the uid seed
keeps the time of day in its isoformat. -/
theorem C8_datetime_uid_divergence :
    (_normalise_event c8DatetimeRecord defaultConfig).map (fun ne => ne.uid) ≠
      (_normalise_event c8DateRecord defaultConfig).map (fun ne => ne.uid) ∧
    (_normalise_event c8DatetimeRecord defaultConfig).map (fun ne => ne.date.date) =
      (_normalise_event c8DateRecord defaultConfig).map (fun ne => ne.date.date) := by
  constructor
  · decide
  · rfl

/-! Sorting and permutation invariance: claim C3. -/

theorem eq_of_perm_of_sorted_on {α : Type} (r : α → α → Prop) :
    ∀ (l₁ l₂ : List α), l₁.Perm l₂ → l₁.Sorted r → l₂.Sorted r →
      (∀ a ∈ l₁, ∀ b ∈ l₁, r a b → r b a → a = b) → l₁ = l₂
  | [], l₂, p, _, _, _ => (p.symm.eq_nil).symm
  | a :: t₁, l₂, p, s₁, s₂, anti => by
    cases l₂ with
    | nil => exact List.noConfusion p.eq_nil
    | cons b t₂ =>
      have hab : a = b := by
        have haIn : a ∈ b :: t₂ := p.subset (List.mem_cons_self a t₁)
        rcases List.mem_cons.mp haIn with h | h
        · exact h
        · have hba : r b a := List.rel_of_sorted_cons s₂ a h
          have hbIn : b ∈ a :: t₁ := p.symm.subset (List.mem_cons_self b t₂)
          rcases List.mem_cons.mp hbIn with h' | h'
          · exact h'.symm
          · have hab' : r a b := List.rel_of_sorted_cons s₁ b h'
            exact anti a (List.mem_cons_self a t₁) b (List.mem_cons_of_mem a h')
              hab' hba
      subst hab
      have heq : t₁ = t₂ :=
        eq_of_perm_of_sorted_on r t₁ t₂ p.cons_inv s₁.of_cons s₂.of_cons
          (fun x hx y hy =>
            anti x (List.mem_cons_of_mem a hx) y (List.mem_cons_of_mem a hy))
      rw [heq]

theorem char_toNat_injective : Function.Injective Char.toNat := by
  intro a b h
  have h2 := congrArg Char.ofNat h
  rwa [Char.ofNat_toNat, Char.ofNat_toNat] at h2

theorem sortKeyEnc_eq_elim (a b : NormalisedEvent)
    (hta : a.date.time = none) (htb : b.date.time = none)
    (hsa : isVstr a.summary = true) (hsb : isVstr b.summary = true)
    (h : sortKeyEnc a = sortKeyEnc b) : a.date = b.date ∧ a.summary = b.summary := by
  obtain ⟨ua, sa0, dea, ca, pda⟩ := a
  obtain ⟨ub, sb0, deb, cb, pdb⟩ := b
  obtain ⟨⟨y1, m1, d1⟩, t1⟩ := pda
  obtain ⟨⟨y2, m2, d2⟩, t2⟩ := pdb
  dsimp only at hta htb hsa hsb h ⊢
  subst hta
  subst htb
  cases sa0 <;> try exact Bool.noConfusion hsa
  case vstr sa =>
  cases sb0 <;> try exact Bool.noConfusion hsb
  case vstr sb =>
  unfold sortKeyEnc at h
  dsimp only [timeKeyEnc, valueTag, summaryKeyEnc] at h
  simp only [List.cons_append, List.nil_append, List.cons.injEq, and_true,
    true_and, eq_self_iff_true] at h
  obtain ⟨h1, h2, h3, hmap⟩ := h
  have hdata : sa.data = sb.data :=
    List.map_injective_iff.mpr char_toNat_injective hmap
  have hstr : sa = sb := String.ext hdata
  simp [h1, h2, h3, hstr]

/-- C3 amended: serialising two permutations of the same canonical events
with the same configuration and the same generation timestamp yields
byte-identical output, for events over the region where Python's key
comparison is defined (time-free dates, string summaries), provided no two
distinct events share both date and summary.  The counterexample below
shows the proviso is necessary: the sort is stable, so events tied on
(date, summary) keep their input order and permuting them reorders their
differing blocks. -/
theorem C3_permutation_invariance (now : String) (cfg : CalendarConfig)
    (ns₁ ns₂ : List NormalisedEvent) (hperm : ns₁.Perm ns₂)
    (htime : ∀ a ∈ ns₁, a.date.time = none)
    (hstr : ∀ a ∈ ns₁, isVstr a.summary = true)
    (hinj : ∀ a ∈ ns₁, ∀ b ∈ ns₁, a.date = b.date → a.summary = b.summary → a = b) :
    serializeNormalised now cfg ns₁ = serializeNormalised now cfg ns₂ := by
  have hsort : pySortEvents ns₁ = pySortEvents ns₂ := by
    refine eq_of_perm_of_sorted_on sortKeyRel _ _
      ((List.perm_insertionSort sortKeyRel ns₁).trans
        (hperm.trans (List.perm_insertionSort sortKeyRel ns₂).symm))
      (List.sorted_insertionSort sortKeyRel ns₁)
      (List.sorted_insertionSort sortKeyRel ns₂) ?_
    intro a ha b hb hab hba
    have ha' : a ∈ ns₁ := (List.perm_insertionSort sortKeyRel ns₁).subset ha
    have hb' : b ∈ ns₁ := (List.perm_insertionSort sortKeyRel ns₁).subset hb
    have hkey : sortKeyEnc a = sortKeyEnc b := le_antisymm hab hba
    obtain ⟨hd, hs⟩ := sortKeyEnc_eq_elim a b (htime a ha') (htime b hb')
      (hstr a ha') (hstr b hb') hkey
    exact hinj a ha' b hb' hd hs
  unfold serializeNormalised
  rw [hsort]

/-- C3 counterexample: two canonical events tied on (date, summary) but
with different descriptions; swapping them swaps the emitted blocks, so
the two permutations serialise to different bytes even with an identical
generation timestamp. -/
theorem C3_tie_break_counterexample :
    [c3TieA, c3TieB].Perm [c3TieB, c3TieA] ∧
    serializeNormalised "20250101T000000Z" defaultConfig [c3TieA, c3TieB] ≠
      serializeNormalised "20250101T000000Z" defaultConfig [c3TieB, c3TieA] := by
  constructor
  · exact List.Perm.swap c3TieB c3TieA []
  · decide

/-- Witness for C3 at two events with distinct dates. -/
theorem C3_permutation_invariance_witness :
    serializeNormalised "20250101T000000Z" defaultConfig [c3KeyA, c3KeyB] =
      serializeNormalised "20250101T000000Z" defaultConfig [c3KeyB, c3KeyA] := by
  refine C3_permutation_invariance "20250101T000000Z" defaultConfig
    [c3KeyA, c3KeyB] [c3KeyB, c3KeyA] (List.Perm.swap c3KeyB c3KeyA [])
    (by decide) (by decide) ?_
  intro a ha b hb hd hs
  rcases List.mem_cons.mp ha with rfl | ha'
  · rcases List.mem_cons.mp hb with rfl | hb'
    · rfl
    · rcases List.mem_cons.mp hb' with rfl | hb''
      · exact absurd hd (by decide)
      · exact absurd hb'' (List.not_mem_nil b)
  · rcases List.mem_cons.mp ha' with rfl | ha''
    · rcases List.mem_cons.mp hb with rfl | hb'
      · exact absurd hd (by decide)
      · rcases List.mem_cons.mp hb' with rfl | hb''
        · rfl
        · exact absurd hb'' (List.not_mem_nil b)
    · exact absurd ha'' (List.not_mem_nil a)

/-! The feed header: claims C10 and C1. -/

/-- C10: serialising the empty event sequence never fails and produces
exactly the six header lines, in order the begin marker, the product id,
the fixed version, the fixed scale, the escaped feed name and the escaped
timezone, followed immediately by the end marker, every physical line
terminated by CRLF including the last. -/
theorem C10_empty_feed (now : String) (cfg : CalendarConfig) :
    build_icalendar now [] cfg =
      .ok (String.intercalate crlf
        ["BEGIN:VCALENDAR",
         "PRODID:" ++ cfg.prodid,
         "VERSION:2.0",
         "CALSCALE:GREGORIAN",
         "X-WR-CALNAME:" ++ _escape_text cfg.name,
         "X-WR-TIMEZONE:" ++ _escape_text cfg.timezone,
         "END:VCALENDAR"] ++ crlf) := rfl

/-- C1: no METHOD, REFRESH-INTERVAL or X-PUBLISHED-TTL property ever
appears in the output: the CalendarConfig dataclass of calendar.py has no
method, refresh_interval or published_ttl field (cli.py passes exactly
those keyword arguments when constructing it, raising TypeError), and
build_icalendar emits only the six fixed header lines, as evaluated here
on the default configuration. -/
theorem C1_no_optional_header_properties :
    (build_icalendar "20250101T000000Z" [] defaultConfig).map
      (fun out =>
        (decide ("METHOD".data <:+: out.data),
         decide ("REFRESH-INTERVAL".data <:+: out.data),
         decide ("X-PUBLISHED-TTL".data <:+: out.data))) =
      .ok (false, false, false) := by
  decide

end CatCal
